import Mathlib

/-!
Endpoint / streaming-lock core of `src/subdevice.h`.

A shallow embedding of the classes declared in `subdevice.h`
(`streaming_lock`, `endpoint`, `uvc_endpoint`, `uvc_endpoint::power`,
`uvc_endpoint::uvc_streaming_lock`).

* Objects that are shared through `std::shared_ptr` / `std::weak_ptr` live in a
  `World`.  Endpoints sit in a list of control blocks, each holding a live
  `uvc_endpoint` or nothing once the endpoint has been destroyed; a `weak_ptr`
  is an optional index into that list and `weak_ptr::lock()` is `World.lock`.
  Devices sit in a store of their own: an endpoint holds its device through a
  `std::shared_ptr<uvc::uvc_device>`, modelled as the address of the device in
  that store, so several endpoints can hold the same device and a device
  outlives the endpoints that hold it.
* Every call that the statements below talk about (power acquire/release, the
  transport primitives, `flush`) is recorded in `World.trace`, a ghost log that
  no operation ever reads.
* Member functions whose bodies are inline in the header are translated line
  by line.  Member functions that the header only declares are modelled from
  the specification; each such definition says so in its doc comment.
* The mutexes are not modelled: the embedding is the sequential behaviour the
  locks serialise to.
-/

namespace rsimpl

/-! ## Data model -/

/-- Modelled from the spec: `uvc::stream_profile` is declared in `backend.h`,
which is not part of the sources.  A device-native descriptor
(format identifier, width, height, frame rate). -/
structure uvc.stream_profile where
  format : Nat
  width : Nat
  height : Nat
  fps : Nat
deriving DecidableEq, Repr

/-- Modelled from the spec: `native_pixel_format` is declared outside the
sources.  A mapping from one device-native format to the application output
formats it can satisfy. -/
structure native_pixel_format where
  fourcc : Nat
  outputs : List Nat
deriving DecidableEq, Repr

/-- Modelled from the spec: `stream_request` is declared outside the sources.
A caller-supplied target in which any field may be unset. -/
structure stream_request where
  format : Option Nat
  width : Option Nat
  height : Option Nat
  fps : Option Nat
deriving DecidableEq, Repr

/-- Modelled from the spec: `request_mapping` is declared outside the sources.
The pairing of one request with exactly one native profile and one chosen
application output format. -/
structure request_mapping where
  request : stream_request
  profile : uvc.stream_profile
  format : Nat
deriving DecidableEq, Repr

/-- Error kinds of the specification, plus `bad_weak_ptr` for
`shared_from_this()` on an object no `shared_ptr` owns. -/
inductive Error where
  | InvalidRequest
  | ConflictingRequest
  | OutOfFrames
  | DeviceUnavailable
  | InvalidState
  | bad_weak_ptr
deriving DecidableEq, Repr

/-- Calls recorded in the ghost log.  The argument names the endpoint
(its control block) on which, or on whose device, the call is made. -/
inductive Event where
  | acquire_power (ep : Nat)
  | release_power (ep : Nat)
  | stop_streaming (ep : Nat)
  | power_on (ep : Nat)
  | power_off (ep : Nat)
  | start_capture (ep : Nat)
  | stop_capture (ep : Nat)
  | flush
deriving DecidableEq, Repr

/-- Modelled from the spec: `uvc::uvc_device` is declared in `backend.h`.
The transport presents `list_stream_profiles`, `power_on`, `power_off`,
`start_capture` and `stop_capture`; `capture_available` says whether the next
`start_capture` succeeds. -/
structure uvc.uvc_device where
  profiles : List uvc.stream_profile
  powered : Bool
  capturing : Bool
  capture_available : Bool
deriving DecidableEq, Repr

/-- Modelled from the spec: transport primitive `power_on()`. -/
def uvc.uvc_device.power_on (d : uvc.uvc_device) : uvc.uvc_device :=
  { d with powered := true }

/-- Modelled from the spec: transport primitive `power_off()`. -/
def uvc.uvc_device.power_off (d : uvc.uvc_device) : uvc.uvc_device :=
  { d with powered := false }

/-- Modelled from the spec: transport primitive `stop_capture()`. -/
def uvc.uvc_device.stop_capture (d : uvc.uvc_device) : uvc.uvc_device :=
  { d with capturing := false }

/-- Modelled from the spec: transport primitive `start_capture(profile, sink)`;
it fails with `DeviceUnavailable` when the transport cannot start. -/
def uvc.uvc_device.start_capture (d : uvc.uvc_device)
    (_ps : List uvc.stream_profile) : Except Error uvc.uvc_device :=
  if d.capture_available then .ok { d with capturing := true }
  else .error .DeviceUnavailable

/-- The class `endpoint`: its only data member is `_pixel_formats`. -/
structure endpoint where
  _pixel_formats : List native_pixel_format
deriving DecidableEq, Repr

/-- The class `uvc_endpoint : endpoint`.  `_user_count` is the C++ `int`
(initialised to 0 by the header); `_device` is the
`std::shared_ptr<uvc::uvc_device>` the endpoint was constructed with: the
address of a device in the device store of the world, which other endpoints
may hold as well.  `_xus`, `_configuration` and the two mutexes are read by no
function embedded here. -/
structure uvc_endpoint extends endpoint where
  _device : Nat
  _user_count : Int
deriving DecidableEq, Repr

/-- The explicit constructor `uvc_endpoint(std::shared_ptr<uvc::uvc_device>)`
together with the default member initialiser `_user_count = 0`. -/
def uvc_endpoint.ctor (uvc_device : Nat) : uvc_endpoint :=
  { _pixel_formats := [], _device := uvc_device, _user_count := 0 }

/-- A `std::weak_ptr<uvc_endpoint>`: empty, or the index of a control block. -/
abbrev weak_ptr := Option Nat

/-- The store of devices (by address), the heap of endpoint control blocks and
the ghost log. -/
structure World where
  devices : Nat → uvc.uvc_device
  endpoints : List (Option uvc_endpoint)
  trace : List Event

/-- The endpoint held by control block `i`, if it is still alive. -/
def World.get (w : World) (i : Nat) : Option uvc_endpoint :=
  (w.endpoints.get? i).join

/-- Overwrite the endpoint held by control block `i`. -/
def World.put (w : World) (i : Nat) (ep : uvc_endpoint) : World :=
  { w with endpoints := w.endpoints.set i (some ep) }

/-- Overwrite the device at address `a`. -/
def World.setdev (w : World) (a : Nat) (d : uvc.uvc_device) : World :=
  { w with devices := fun b => if b = a then d else w.devices b }

/-- Append one call to the ghost log. -/
def World.emit (w : World) (e : Event) : World :=
  { w with trace := w.trace ++ [e] }

/-- The function `std::weak_ptr::lock()`: a strong reference (the index of a
live control block) or null. -/
def World.lock (w : World) (p : weak_ptr) : Option Nat :=
  match p with
  | none => none
  | some i => if (w.get i).isSome then some i else none

/-- The last `shared_ptr` to endpoint `i` goes away: the control block
expires for good. -/
def World.expire (w : World) (i : Nat) : World :=
  { w with endpoints := w.endpoints.set i none }

/-! ## `uvc_endpoint`: power reference counting -/

/-- Modelled from the spec: the body of `uvc_endpoint::acquire_power` is not in
the sources.  It increments the power reference and, on the 0 to 1 transition,
instructs the transport to power the device.  The count is a mathematical
integer here: it never exceeds the number of guards alive, which stays far
below the range of the C++ `int`. -/
def uvc_endpoint.acquire_power (w : World) (self : Nat) : World :=
  match w.get self with
  | none => w
  | some ep =>
    let w1 := w.emit (.acquire_power self)
    if ep._user_count = 0 then
      ((w1.emit (.power_on self)).setdev ep._device (w.devices ep._device).power_on).put self
        { ep with _user_count := ep._user_count + 1 }
    else
      w1.put self { ep with _user_count := ep._user_count + 1 }

/-- Modelled from the spec: the body of `uvc_endpoint::release_power` is not in
the sources.  It decrements the power reference and, on the 1 to 0 transition,
instructs the transport to power the device down. -/
def uvc_endpoint.release_power (w : World) (self : Nat) : World :=
  match w.get self with
  | none => w
  | some ep =>
    let w1 := w.emit (.release_power self)
    if ep._user_count = 1 then
      ((w1.emit (.power_off self)).setdev ep._device (w.devices ep._device).power_off).put self
        { ep with _user_count := ep._user_count - 1 }
    else
      w1.put self { ep with _user_count := ep._user_count - 1 }

/-- Modelled from the spec: the body of `uvc_endpoint::stop_streaming` is not
in the sources.  It instructs the transport to halt raw capture. -/
def uvc_endpoint.stop_streaming (w : World) (self : Nat) : World :=
  match w.get self with
  | none => w
  | some ep =>
    ((w.emit (.stop_streaming self)).emit (.stop_capture self)).setdev ep._device
      (w.devices ep._device).stop_capture

/-- The private struct `uvc_endpoint::power`. -/
structure uvc_endpoint.power where
  _owner : weak_ptr
deriving DecidableEq, Repr

/-- The constructor `power(std::weak_ptr<uvc_endpoint> owner)`:
`auto strong = _owner.lock(); if (strong) strong->acquire_power();`. -/
def uvc_endpoint.power.ctor (w : World) (owner : weak_ptr) :
    uvc_endpoint.power × World :=
  match w.lock owner with
  | some strong => ({ _owner := owner }, uvc_endpoint.acquire_power w strong)
  | none => ({ _owner := owner }, w)

/-- The destructor `~power()`:
`auto strong = _owner.lock(); if (strong) strong->release_power();`. -/
def uvc_endpoint.power.dtor (w : World) (p : uvc_endpoint.power) : World :=
  match w.lock p._owner with
  | some strong => uvc_endpoint.release_power w strong
  | none => w

/-! ## `streaming_lock` -/

/-- A `frame_callback_ptr`: null or a callback (named by a number). -/
abbrev frame_callback_ptr := Option Nat

/-- The class `streaming_lock`, with the members its state machine is made of:
the streaming flag and the stored callback. -/
structure streaming_lock where
  _is_streaming : Bool
  _callback : frame_callback_ptr
deriving DecidableEq, Repr

/-- Modelled from the spec: `streaming_lock::streaming_lock()` is only declared.
A constructed lock is `Idle`: not streaming, no callback. -/
def streaming_lock.ctor : streaming_lock :=
  { _is_streaming := false, _callback := none }

/-- The inline member `is_streaming()`. -/
def streaming_lock.is_streaming (l : streaming_lock) : Bool :=
  l._is_streaming

/-- Modelled from the spec: `streaming_lock::play` is only declared.  It is only
valid from `Idle`; while streaming it is reported as `InvalidState`. -/
def streaming_lock.play (l : streaming_lock) (callback : frame_callback_ptr) :
    Except Error streaming_lock :=
  if l._is_streaming then .error .InvalidState
  else .ok { _is_streaming := true, _callback := callback }

/-- Modelled from the spec: `streaming_lock::flush` is only declared.  It waits
for an in-flight callback; sequentially it changes nothing and is logged. -/
def streaming_lock.flush (w : World) (_l : streaming_lock) : World :=
  w.emit .flush

/-- Modelled from the spec: `streaming_lock::stop` is only declared.  It clears
the streaming flag, releases the stored callback, and invokes `flush()`. -/
def streaming_lock.stop (w : World) (l : streaming_lock) : streaming_lock × World :=
  let l1 : streaming_lock := { l with _is_streaming := false }
  let l2 : streaming_lock := { l1 with _callback := none }
  (l2, streaming_lock.flush w l2)

/-- Modelled from the spec: `streaming_lock::~streaming_lock` is only declared.
Running the destructor takes the lock to `Stopped`, as `stop()` does.  Inside
a base-class destructor a virtual call resolves to the base class, so this is
`streaming_lock::stop`, never an override. -/
def streaming_lock.dtor (w : World) (l : streaming_lock) : World :=
  (streaming_lock.stop w l).2

/-! ## `uvc_endpoint::uvc_streaming_lock` -/

/-- The private class `uvc_endpoint::uvc_streaming_lock : streaming_lock` with
its members in declaration order: `_owner`, then `_power`. -/
structure uvc_endpoint.uvc_streaming_lock extends streaming_lock where
  _owner : weak_ptr
  _power : uvc_endpoint.power
deriving DecidableEq, Repr

/-- The constructor `uvc_streaming_lock(std::weak_ptr<uvc_endpoint> owner)
: _owner(owner), _power(owner)`: base first, then the members in order. -/
def uvc_endpoint.uvc_streaming_lock.ctor (w : World) (owner : weak_ptr) :
    uvc_endpoint.uvc_streaming_lock × World :=
  let base := streaming_lock.ctor
  let p := uvc_endpoint.power.ctor w owner
  ({ base with _owner := owner, _power := p.1 }, p.2)

/-- The override `uvc_streaming_lock::stop()`:
`streaming_lock::stop(); auto strong = _owner.lock();
if (strong) strong->stop_streaming();`. -/
def uvc_endpoint.uvc_streaming_lock.stop (w : World)
    (l : uvc_endpoint.uvc_streaming_lock) : uvc_endpoint.uvc_streaming_lock × World :=
  let b := streaming_lock.stop w l.tostreaming_lock
  let l1 : uvc_endpoint.uvc_streaming_lock := { l with tostreaming_lock := b.1 }
  match b.2.lock l._owner with
  | some strong => (l1, uvc_endpoint.stop_streaming b.2 strong)
  | none => (l1, b.2)

/-- The implicit destructor of `uvc_streaming_lock` (the class declares none):
the members are destroyed in reverse declaration order, `_power` and then
`_owner` (a `weak_ptr`, nothing to do), and then the base class destructor
runs. -/
def uvc_endpoint.uvc_streaming_lock.dtor (w : World)
    (l : uvc_endpoint.uvc_streaming_lock) : World :=
  let w1 := uvc_endpoint.power.dtor w l._power
  streaming_lock.dtor w1 l.tostreaming_lock

/-! ## `uvc_endpoint::invoke_powered` -/

/-- The member template `invoke_powered(T action)`:
`power on(shared_from_this()); return action(*_device);`.
An action receives the device and hands back its result, or the error it
throws, together with the device as it left it.  The guard `on` (named `on_`
below, `on` being a reserved word) is destroyed when the scope is left, by
`return` or by unwinding, so both exits run `~power`.  `shared_from_this()` on
an endpoint that no `shared_ptr` owns throws `bad_weak_ptr`. -/
def uvc_endpoint.invoke_powered {T : Type} (w : World) (self : Nat)
    (action : uvc.uvc_device → Except Error T × uvc.uvc_device) :
    Except Error T × World :=
  match w.get self with
  | none => (.error .bad_weak_ptr, w)
  | some ep =>
    let on_ := uvc_endpoint.power.ctor w (some self)
    let r := action (on_.2.devices ep._device)
    let w2 := on_.2.setdev ep._device r.2
    (r.1, uvc_endpoint.power.dtor w2 on_.1)

/-! ## `endpoint`: pixel formats and request resolution -/

/-- The inline member `register_pixel_format(native_pixel_format pf)`:
`_pixel_formats.push_back(pf);`. -/
def endpoint.register_pixel_format (e : endpoint) (pf : native_pixel_format) : endpoint :=
  { e with _pixel_formats := e._pixel_formats ++ [pf] }

/-- Modelled from the spec: `uvc_endpoint::get_stream_profiles` is only
declared.  It returns the device's complete native profile list by querying
the transport. -/
def uvc_endpoint.get_stream_profiles (ep : uvc_endpoint) (w : World) :
    List uvc.stream_profile :=
  (w.devices ep._device).profiles

/-- Modelled from the spec: helper of `try_get_pf`, absent from the sources.
The registrations of native format `fourcc`, each with its registration
index, in registration order.  The table is not de-duplicated, so a native
format can be registered several times. -/
def endpoint.registrations (e : endpoint) (fourcc : Nat) : List (Nat × native_pixel_format) :=
  e._pixel_formats.enum.filter (fun x => x.2.fourcc == fourcc)

/-- Modelled from the spec: `endpoint::try_get_pf` is only declared
(`bool try_get_pf(const uvc::stream_profile& p, native_pixel_format& result)`).
It looks the profile's native format up in the pixel-format table and hands
back what that native format maps to: the application formats of all its
registrations, those of later registrations first.  `none` is the C++ `false`:
the native format is not registered.  The caller looks the requested
application format up in the result. -/
def endpoint.try_get_pf (e : endpoint) (p : uvc.stream_profile) : Option native_pixel_format :=
  match e.registrations p.format with
  | [] => none
  | x :: xs =>
    some { fourcc := p.format,
           outputs := (x :: xs).reverse.flatMap (fun y => y.2.outputs) }

/-- A request with every field set. -/
def stream_request.is_complete (r : stream_request) : Bool :=
  r.format.isSome && r.width.isSome && r.height.isSome && r.fps.isSome

/-- Modelled from the spec: a candidate of auto-completion, absent from the
sources: a native profile, an application format it can be delivered in, and
the registration index of the table entry that provides the format. -/
structure candidate where
  profile : uvc.stream_profile
  format : Nat
  index : Nat
deriving DecidableEq, Repr

/-- Modelled from the spec: the candidates the native profiles offer: every
native profile with every application format that a registration of its
native format provides. -/
def endpoint.candidates (e : endpoint) (profiles : List uvc.stream_profile) : List candidate :=
  profiles.flatMap (fun p =>
    (e.registrations p.format).flatMap (fun x =>
      x.2.outputs.map (fun f => { profile := p, format := f, index := x.1 })))

/-- Modelled from the spec: a candidate agrees with the set fields of a
request. -/
def candidate.agrees (c : candidate) (r : stream_request) : Bool :=
  (r.format.isNone || r.format == some c.format) &&
  (r.width.isNone || r.width == some c.profile.width) &&
  (r.height.isNone || r.height == some c.profile.height) &&
  (r.fps.isNone || r.fps == some c.profile.fps)

/-- Modelled from the spec: the default policy of auto-completion: prefer the
highest resolution, then the highest frame rate, then the first-registered
pixel format. -/
def candidate.better (a b : candidate) : Bool :=
  let ra := a.profile.width * a.profile.height
  let rb := b.profile.width * b.profile.height
  decide (rb < ra) ||
  (ra == rb && (decide (b.profile.fps < a.profile.fps) ||
    (a.profile.fps == b.profile.fps && decide (a.index < b.index))))

/-- Modelled from the spec: the preferred candidate of a list (the earliest
one among equally good ones). -/
def candidate.pick (cs : List candidate) : Option candidate :=
  cs.foldl (fun acc c =>
    match acc with
    | none => some c
    | some b => if c.better b then some c else some b) none

/-- Modelled from the spec: auto-completion of one request.  A fully specified
request is returned unchanged; otherwise the unset fields are filled in from
the preferred agreeing candidate, and there is no result when no candidate
agrees. -/
def endpoint.auto_complete_one (e : endpoint) (profiles : List uvc.stream_profile)
    (r : stream_request) : Option stream_request :=
  if r.is_complete then some r
  else
    match candidate.pick ((e.candidates profiles).filter (fun c => c.agrees r)) with
    | none => none
    | some c =>
      some { format := some c.format, width := some c.profile.width,
             height := some c.profile.height, fps := some c.profile.fps }

/-- All results of a list of optional results, or nothing when one is
missing. -/
def collect {α : Type} : List (Option α) → Option (List α)
  | [] => some []
  | none :: _ => none
  | some a :: t => (collect t).map (fun l => a :: l)

/-- Modelled from the spec: `endpoint::auto_complete_request` is only declared
(`bool auto_complete_request(std::vector<stream_request>&)`).  It completes in
place every request of the vector that can be completed.  The first component
is the C++ result, `false` when some request could not be completed; the
second is the vector as it is left. -/
def endpoint.auto_complete_request (e : endpoint) (profiles : List uvc.stream_profile)
    (requests : List stream_request) : Bool × List stream_request :=
  (requests.all (fun r => (e.auto_complete_one profiles r).isSome),
   requests.map (fun r => (e.auto_complete_one profiles r).getD r))

/-- Modelled from the spec: step 2 of resolution for one request: find a native
profile whose width, height and frame rate are the requested ones and whose
native format maps, via `try_get_pf`, to the requested application format.
A request with an unset field matches nothing. -/
def endpoint.match_request (e : endpoint) (profiles : List uvc.stream_profile)
    (r : stream_request) : Option request_mapping :=
  match r.format, r.width, r.height, r.fps with
  | some f, some wd, some ht, some fr =>
    (profiles.find? (fun p =>
      p.width == wd && p.height == ht && p.fps == fr &&
      (match e.try_get_pf p with
       | some pf => pf.outputs.contains f
       | none => false))).map (fun p => { request := r, profile := p, format := f })
  | _, _, _, _ => none

/-- Modelled from the spec: `endpoint::resolve_requests` is only declared.
Step 1 auto-completes the requests, step 2 matches every completed request to
a native profile, step 3 rejects two requests on the same native profile,
step 4 returns one mapping per request in request order.  Nothing is returned
on failure.  The error kinds follow sections 7 and 8 of the specification: two
requests that resolve to the same native profile always yield
`ConflictingRequest`, so a collision among the requests that resolve is
reported whatever else is in the list; without a collision, a request that
cannot be completed or matched yields `InvalidRequest`. -/
def endpoint.resolve_requests (e : endpoint) (profiles : List uvc.stream_profile)
    (requests : List stream_request) : Except Error (List request_mapping) :=
  let completed := e.auto_complete_request profiles requests
  let matched := completed.2.map (e.match_request profiles)
  if ¬ ((matched.filterMap id).map (fun m => m.profile)).Nodup then
    .error .ConflictingRequest
  else if completed.1 then
    match collect matched with
    | some mappings => .ok mappings
    | none => .error .InvalidRequest
  else .error .InvalidRequest

/-- Modelled from the spec: `endpoint::get_principal_requests` is only
declared.  One fully specified request per native profile that has a
registered application format, returned as a de-duplicated set. -/
def endpoint.get_principal_requests (e : endpoint) (profiles : List uvc.stream_profile) :
    List stream_request :=
  (profiles.filterMap (fun p =>
    match e.try_get_pf p with
    | none => none
    | some pf => pf.outputs.head?.map (fun f =>
        { format := some f, width := some p.width,
          height := some p.height, fps := some p.fps }))).dedup

/-- Modelled from the spec: `uvc_endpoint::configure` is only declared.  It
resolves the requests, constructs a `uvc_streaming_lock` bound to this
endpoint (`shared_from_this()`), starts raw capture with the resolved native
profiles and returns the lock.  When starting capture fails the lock, a local
that was never handed out, is destroyed by unwinding before the error reaches
the caller. -/
def uvc_endpoint.configure (w : World) (self : Nat) (requests : List stream_request) :
    Except Error uvc_endpoint.uvc_streaming_lock × World :=
  match w.get self with
  | none => (.error .bad_weak_ptr, w)
  | some ep =>
    match ep.toendpoint.resolve_requests (ep.get_stream_profiles w) requests with
    | .error err => (.error err, w)
    | .ok mappings =>
      let streaming := uvc_endpoint.uvc_streaming_lock.ctor w (some self)
      let w2 := streaming.2.emit (.start_capture self)
      match (w2.devices ep._device).start_capture (mappings.map (fun m => m.profile)) with
      | .error err => (.error err, uvc_endpoint.uvc_streaming_lock.dtor w2 streaming.1)
      | .ok d => (.ok streaming.1, w2.setdev ep._device d)

/-! ## Programs over locks -/

/-- A program state: the world and the streaming locks the callers hold
(`none` once a lock has been destroyed). -/
structure Sys where
  world : World
  locks : List (Option uvc_endpoint.uvc_streaming_lock)

/-- What a caller does with streaming locks: construct one bound to `owner`,
or destroy the one created as number `k`. -/
inductive Op where
  | create (owner : weak_ptr)
  | destroy (k : Nat)
deriving DecidableEq, Repr

/-- One step of a program.  Destroying a lock that does not exist (any more)
is not a step a C++ program can take; it is skipped. -/
def Sys.step (s : Sys) : Op → Sys
  | .create owner =>
    let c := uvc_endpoint.uvc_streaming_lock.ctor s.world owner
    { world := c.2, locks := s.locks ++ [some c.1] }
  | .destroy k =>
    match (s.locks.get? k).join with
    | some l => { world := uvc_endpoint.uvc_streaming_lock.dtor s.world l,
                  locks := s.locks.set k none }
    | none => s

/-- Run a program. -/
def Sys.run (s : Sys) (ops : List Op) : Sys :=
  ops.foldl Sys.step s

/-- The power reference count of endpoint `e` (0 when it is gone). -/
def World.user_count (w : World) (e : Nat) : Int :=
  match w.get e with
  | some ep => ep._user_count
  | none => 0

/-- Whether the device of endpoint `e` is powered. -/
def World.powered (w : World) (e : Nat) : Bool :=
  match w.get e with
  | some ep => (w.devices ep._device).powered
  | none => false

/-- Whether the device of endpoint `e` is capturing. -/
def World.capturing (w : World) (e : Nat) : Bool :=
  match w.get e with
  | some ep => (w.devices ep._device).capturing
  | none => false

/-- How often the call `ev` has been made so far. -/
def World.calls (w : World) (ev : Event) : Nat :=
  w.trace.count ev

/-- The number of locks that are alive. -/
def Sys.live (s : Sys) : Nat :=
  s.locks.countP Option.isSome

/-- The program of the power-reference scenario: `N` locks bound to endpoint
`e` are created, then the locks are destroyed in the order `σ`. -/
def power_program (e N : Nat) (σ : List Nat) : List Op :=
  List.replicate N (Op.create (some e)) ++ σ.map Op.destroy

/-- The world after the first `k` steps of the scenario, started in `w` with
no lock held. -/
def power_state (w : World) (e N : Nat) (σ : List Nat) (k : Nat) : World :=
  (Sys.run { world := w, locks := [] } ((power_program e N σ).take k)).world

/-- The native format identifier used in the scenarios (a YUV format). -/
def YUV : Nat := 1

/-- The application format identifier used in the scenarios. -/
def RGB8 : Nat := 100

/-- The device of the scenarios: it advertises (YUV,640x480,30) and
(YUV,1280x720,15), is powered off and idle, and can start capture. -/
def scenario_device : uvc.uvc_device :=
  { profiles := [{ format := YUV, width := 640, height := 480, fps := 30 },
                 { format := YUV, width := 1280, height := 720, fps := 15 }],
    powered := false, capturing := false, capture_available := true }

/-- The endpoint of the scenarios: freshly constructed on the device at
address 0, with YUV to RGB8 registered. -/
def scenario_endpoint : uvc_endpoint :=
  { uvc_endpoint.ctor 0 with
    toendpoint := endpoint.register_pixel_format (uvc_endpoint.ctor 0).toendpoint
      { fourcc := YUV, outputs := [RGB8] } }

/-- The world of the scenarios: `scenario_device` at every address, one live
endpoint, nothing logged. -/
def scenario_world : World :=
  { devices := fun _ => scenario_device, endpoints := [some scenario_endpoint], trace := [] }

/-- The fully specified request (RGB8,640,480,30) of the scenarios. -/
def scenario_request : stream_request :=
  { format := some RGB8, width := some 640, height := some 480, fps := some 30 }

/-- The scenario world while one stream is running: the endpoint has been
configured once (count 1, device powered and capturing). -/
def streaming_world : World :=
  { devices := fun a =>
      if a = 0 then { scenario_device with powered := true, capturing := true }
      else scenario_device,
    endpoints := [some { scenario_endpoint with _user_count := 1 }],
    trace := [] }

/-- The lock of that stream after `play`: streaming, with a callback stored,
bound to endpoint 0. -/
def streaming_lock_held : uvc_endpoint.uvc_streaming_lock :=
  { _is_streaming := true, _callback := some 7, _owner := some 0,
    _power := { _owner := some 0 } }

/-- Modelled from the spec: what one request resolves to on its own:
auto-completion followed by the match against the native profiles. -/
def endpoint.resolve_one (e : endpoint) (profiles : List uvc.stream_profile)
    (r : stream_request) : Option request_mapping :=
  (e.auto_complete_one profiles r).bind (e.match_request profiles)

/-- A request for RGB8 at width 320 with height and frame rate unset; the
scenario device has no such profile. -/
def unmatched_request : stream_request :=
  { format := some RGB8, width := some 320, height := none, fps := none }

/-- Elementary changes of a world: a call is logged, a device changes state,
the state of a live endpoint changes, or an endpoint is destroyed.  No step revives a control
block: that is what a `weak_ptr` relies on. -/
inductive World.Step : World → World → Prop where
  | emit (w : World) (e : Event) : World.Step w (w.emit e)
  | setdev (w : World) (a : Nat) (d : uvc.uvc_device) : World.Step w (w.setdev a d)
  | put (w : World) (i : Nat) (ep : uvc_endpoint) :
      (w.get i).isSome = true → World.Step w (w.put i ep)
  | expire (w : World) (i : Nat) : World.Step w (w.expire i)

/-- The world `w2` comes after `w1`. -/
def World.Reach (w1 w2 : World) : Prop :=
  Relation.ReflTransGen World.Step w1 w2

end rsimpl

namespace rsimpl

/-! ## The world: reading, writing, logging -/

theorem World.get_emit (w : World) (ev : Event) (i : Nat) : (w.emit ev).get i = w.get i := rfl

theorem World.get_setdev (w : World) (a : Nat) (d : uvc.uvc_device) (i : Nat) :
    (w.setdev a d).get i = w.get i := rfl

theorem World.trace_emit (w : World) (ev : Event) : (w.emit ev).trace = w.trace ++ [ev] := rfl

theorem World.trace_put (w : World) (i : Nat) (ep : uvc_endpoint) :
    (w.put i ep).trace = w.trace := rfl

theorem World.devices_emit (w : World) (ev : Event) : (w.emit ev).devices = w.devices := rfl

theorem World.devices_put (w : World) (i : Nat) (ep : uvc_endpoint) :
    (w.put i ep).devices = w.devices := rfl

theorem World.endpoints_emit (w : World) (ev : Event) :
    (w.emit ev).endpoints = w.endpoints := rfl

theorem World.get_lt_length {w : World} {i : Nat} {ep : uvc_endpoint}
    (h : w.get i = some ep) : i < w.endpoints.length := by
  by_contra hlt
  have hnone : w.endpoints[i]? = none := List.getElem?_eq_none (Nat.le_of_not_lt hlt)
  simp [World.get, hnone] at h

theorem World.get_put_self {w : World} {i : Nat} {ep0 : uvc_endpoint} (ep : uvc_endpoint)
    (h : w.get i = some ep0) : (w.put i ep).get i = some ep := by
  have hlt := World.get_lt_length h
  simp [World.get, World.put, List.getElem?_set, hlt]

theorem World.get_put_ne (w : World) {i j : Nat} (ep : uvc_endpoint) (h : i ≠ j) :
    (w.put i ep).get j = w.get j := by
  simp [World.get, World.put, List.getElem?_set, h]

theorem World.lock_alive {w : World} {i : Nat} {ep : uvc_endpoint} (h : w.get i = some ep) :
    w.lock (some i) = some i := by
  simp [World.lock, h]

/-! ## Power reference: what one call does -/

theorem acquire_power_eq {w : World} {e : Nat} {ep : uvc_endpoint} (h : w.get e = some ep) :
    uvc_endpoint.acquire_power w e =
      { devices := if ep._user_count = 0
          then (fun b => if b = ep._device then (w.devices ep._device).power_on else w.devices b)
          else w.devices,
        endpoints := w.endpoints.set e (some { ep with _user_count := ep._user_count + 1 }),
        trace := w.trace ++
          Event.acquire_power e :: (if ep._user_count = 0 then [Event.power_on e] else []) } := by
  unfold uvc_endpoint.acquire_power
  rw [h]
  by_cases hc : ep._user_count = 0 <;> simp [hc, World.put, World.emit, World.setdev]

theorem release_power_eq {w : World} {e : Nat} {ep : uvc_endpoint} (h : w.get e = some ep) :
    uvc_endpoint.release_power w e =
      { devices := if ep._user_count = 1
          then (fun b => if b = ep._device then (w.devices ep._device).power_off else w.devices b)
          else w.devices,
        endpoints := w.endpoints.set e (some { ep with _user_count := ep._user_count - 1 }),
        trace := w.trace ++
          Event.release_power e :: (if ep._user_count = 1 then [Event.power_off e] else []) } := by
  unfold uvc_endpoint.release_power
  rw [h]
  by_cases hc : ep._user_count = 1 <;> simp [hc, World.put, World.emit, World.setdev]

theorem power_ctor_alive {w : World} {e : Nat} {ep : uvc_endpoint} (h : w.get e = some ep) :
    uvc_endpoint.power.ctor w (some e) = ({ _owner := some e }, uvc_endpoint.acquire_power w e) := by
  simp [uvc_endpoint.power.ctor, World.lock_alive h]

theorem power_dtor_alive {w : World} {e : Nat} {ep : uvc_endpoint} (h : w.get e = some ep)
    (p : uvc_endpoint.power) (hp : p._owner = some e) :
    uvc_endpoint.power.dtor w p = uvc_endpoint.release_power w e := by
  simp [uvc_endpoint.power.dtor, hp, World.lock_alive h]

theorem get_acquire_power {w : World} {e : Nat} {ep : uvc_endpoint} (h : w.get e = some ep) :
    (uvc_endpoint.acquire_power w e).get e =
      some { ep with _user_count := ep._user_count + 1 } := by
  have hlt := World.get_lt_length h
  rw [acquire_power_eq h]
  simp [World.get, List.getElem?_set, hlt]

theorem get_release_power {w : World} {e : Nat} {ep : uvc_endpoint} (h : w.get e = some ep) :
    (uvc_endpoint.release_power w e).get e =
      some { ep with _user_count := ep._user_count - 1 } := by
  have hlt := World.get_lt_length h
  rw [release_power_eq h]
  simp [World.get, List.getElem?_set, hlt]

theorem device_acquire_power {w : World} {e : Nat} {ep : uvc_endpoint} (h : w.get e = some ep) :
    (uvc_endpoint.acquire_power w e).devices ep._device =
      if ep._user_count = 0 then (w.devices ep._device).power_on else w.devices ep._device := by
  rw [acquire_power_eq h]
  by_cases hc : ep._user_count = 0 <;> simp [hc]

theorem device_release_power {w : World} {e : Nat} {ep : uvc_endpoint} (h : w.get e = some ep) :
    (uvc_endpoint.release_power w e).devices ep._device =
      if ep._user_count = 1 then (w.devices ep._device).power_off else w.devices ep._device := by
  rw [release_power_eq h]
  by_cases hc : ep._user_count = 1 <;> simp [hc]

theorem trace_acquire_power {w : World} {e : Nat} {ep : uvc_endpoint} (h : w.get e = some ep) :
    (uvc_endpoint.acquire_power w e).trace = w.trace ++
      Event.acquire_power e :: (if ep._user_count = 0 then [Event.power_on e] else []) := by
  rw [acquire_power_eq h]

theorem trace_release_power {w : World} {e : Nat} {ep : uvc_endpoint} (h : w.get e = some ep) :
    (uvc_endpoint.release_power w e).trace = w.trace ++
      Event.release_power e :: (if ep._user_count = 1 then [Event.power_off e] else []) := by
  rw [release_power_eq h]

theorem lock_ctor_alive {w : World} {e : Nat} {ep : uvc_endpoint} (h : w.get e = some ep) :
    uvc_endpoint.uvc_streaming_lock.ctor w (some e) =
      ({ tostreaming_lock := streaming_lock.ctor, _owner := some e, _power := { _owner := some e } },
        uvc_endpoint.acquire_power w e) := by
  simp [uvc_endpoint.uvc_streaming_lock.ctor, power_ctor_alive h]

theorem lock_dtor_alive {w : World} {e : Nat} {ep : uvc_endpoint} (h : w.get e = some ep)
    (l : uvc_endpoint.uvc_streaming_lock) (hl : l._power._owner = some e) :
    uvc_endpoint.uvc_streaming_lock.dtor w l =
      (uvc_endpoint.release_power w e).emit Event.flush := by
  simp [uvc_endpoint.uvc_streaming_lock.dtor, power_dtor_alive h l._power hl,
    streaming_lock.dtor, streaming_lock.stop, streaming_lock.flush]

theorem Sys.run_append (s : Sys) (a b : List Op) : s.run (a ++ b) = (s.run a).run b := by
  simp [Sys.run, List.foldl_append]

theorem Sys.run_snoc (s : Sys) (a : List Op) (op : Op) :
    s.run (a ++ [op]) = (s.run a).step op := by
  simp [Sys.run, List.foldl_append]

/-! ## The power-reference scenario in closed form -/

theorem calls_acquire_power_on {w : World} {e : Nat} {ep : uvc_endpoint} (h : w.get e = some ep) :
    (uvc_endpoint.acquire_power w e).calls (Event.power_on e) =
      w.calls (Event.power_on e) + (if ep._user_count = 0 then 1 else 0) := by
  unfold World.calls
  rw [trace_acquire_power h]
  by_cases hc : ep._user_count = 0 <;> simp [hc, List.count_cons]

theorem calls_acquire_power_off {w : World} {e : Nat} {ep : uvc_endpoint} (h : w.get e = some ep) :
    (uvc_endpoint.acquire_power w e).calls (Event.power_off e) = w.calls (Event.power_off e) := by
  unfold World.calls
  rw [trace_acquire_power h]
  by_cases hc : ep._user_count = 0 <;> simp [hc, List.count_cons]

theorem calls_release_power_on {w : World} {e : Nat} {ep : uvc_endpoint} (h : w.get e = some ep) :
    ((uvc_endpoint.release_power w e).emit Event.flush).calls (Event.power_on e) =
      w.calls (Event.power_on e) := by
  unfold World.calls
  rw [World.trace_emit, trace_release_power h]
  by_cases hc : ep._user_count = 1 <;> simp [hc, List.count_cons]

theorem calls_release_power_off {w : World} {e : Nat} {ep : uvc_endpoint} (h : w.get e = some ep) :
    ((uvc_endpoint.release_power w e).emit Event.flush).calls (Event.power_off e) =
      w.calls (Event.power_off e) + (if ep._user_count = 1 then 1 else 0) := by
  unfold World.calls
  rw [World.trace_emit, trace_release_power h]
  by_cases hc : ep._user_count = 1 <;> simp [hc, List.count_cons]

theorem nodup_bounded_length {n : Nat} {t : List Nat} (hnd : t.Nodup) (hlt : ∀ k ∈ t, k < n) :
    t.length ≤ n := by
  have hsub : t ⊆ List.range n := fun k hk => List.mem_range.mpr (hlt k hk)
  have := (List.subperm_of_subset hnd hsub).length_le
  simpa using this

theorem run_phases {w : World} {e : Nat} {ep : uvc_endpoint} (h : w.get e = some ep)
    (h0 : ep._user_count = 0) (hoff : (w.devices ep._device).powered = false) (n : Nat) (t : List Nat)
    (hnd : t.Nodup) (hlt : ∀ k ∈ t, k < n) :
    ∃ ep1, (Sys.run { world := w, locks := [] } (power_program e n t)).world.get e = some ep1 ∧
      ep1._user_count = (n : Int) - (t.length : Int) ∧
      ((Sys.run { world := w, locks := [] } (power_program e n t)).world.devices
          ep1._device).powered = decide (t.length < n) ∧
      (Sys.run { world := w, locks := [] } (power_program e n t)).world.calls (Event.power_on e) =
        w.calls (Event.power_on e) + (if 0 < n then 1 else 0) ∧
      (Sys.run { world := w, locks := [] } (power_program e n t)).world.calls (Event.power_off e) =
        w.calls (Event.power_off e) + (if 0 < n ∧ t.length = n then 1 else 0) ∧
      (Sys.run { world := w, locks := [] } (power_program e n t)).locks.length = n ∧
      ∀ k, k < n → k ∉ t →
        ∃ l, ((Sys.run { world := w, locks := [] } (power_program e n t)).locks.get? k).join = some l ∧
          l._power._owner = some e := by
  induction t using List.reverseRecOn with
  | nil =>
    clear hnd hlt
    induction n with
    | zero =>
      refine ⟨ep, ?_, ?_, ?_, ?_, ?_, ?_, ?_⟩ <;> simp [power_program, Sys.run, h, h0, hoff]
    | succ n ih =>
      obtain ⟨ep1, hg, hc, hp, hon, hoffc, hlen, hlive⟩ := ih
      have hprog : power_program e (n + 1) [] = power_program e n [] ++ [Op.create (some e)] := by
        simp [power_program, List.replicate_succ']
      rw [hprog, Sys.run_snoc]
      generalize Sys.run { world := w, locks := [] } (power_program e n []) = s
        at hg hp hon hoffc hlen hlive
      simp only [Sys.step, lock_ctor_alive hg]
      refine ⟨_, get_acquire_power hg, ?_, ?_, ?_, ?_, ?_, ?_⟩
      · simp [hc]
      · simp only [List.length_nil, Nat.cast_zero, sub_zero] at hc
        show ((uvc_endpoint.acquire_power s.world e).devices ep1._device).powered = _
        rw [device_acquire_power hg]
        by_cases hn : n = 0
        · subst hn; simp [hc, uvc.uvc_device.power_on]
        · have : ep1._user_count ≠ 0 := by rw [hc]; exact_mod_cast hn
          simp [this, hp, Nat.pos_of_ne_zero hn]
      · rw [calls_acquire_power_on hg, hon]
        simp only [List.length_nil, Nat.cast_zero, sub_zero] at hc
        by_cases hn : n = 0
        · subst hn; simp [hc]
        · have : ep1._user_count ≠ 0 := by rw [hc]; exact_mod_cast hn
          simp [this, Nat.pos_of_ne_zero hn]
      · rw [calls_acquire_power_off hg, hoffc]
        simp only [List.length_nil]
        by_cases hn : n = 0
        · subst hn; simp
        · have h1 : ¬ (0 = n) := fun hh => hn hh.symm
          have h2 : ¬ (0 = n + 1) := by omega
          simp [h1, h2]
      · simp [hlen]
      · intro k hk _
        by_cases hkn : k < n
        · obtain ⟨l, hl, hlo⟩ := hlive k hkn (by simp)
          refine ⟨l, ?_, hlo⟩
          rw [← hl]
          simp [List.getElem?_append_left, hlen, hkn]
        · have hkeq : k = n := by omega
          subst hkeq
          refine ⟨{ tostreaming_lock := streaming_lock.ctor, _owner := some e,
                    _power := { _owner := some e } }, ?_, rfl⟩
          simp [List.getElem?_append_right, hlen]
  | append_singleton t k ih =>
    have hnd1 : t.Nodup := (List.nodup_append.mp hnd).1
    have hk_notin : k ∉ t := by
      intro hk
      exact (List.nodup_append.mp hnd).2.2 hk (by simp)
    have hkn : k < n := hlt k (by simp)
    have hlen_le := nodup_bounded_length hnd hlt
    simp only [List.length_append, List.length_singleton] at hlen_le
    obtain ⟨ep1, hg, hc, hp, hon, hoffc, hlen, hlive⟩ :=
      ih hnd1 (fun j hj => hlt j (by simp [hj]))
    have hprog : power_program e n (t ++ [k]) = power_program e n t ++ [Op.destroy k] := by
      simp [power_program]
    rw [hprog, Sys.run_snoc]
    generalize Sys.run { world := w, locks := [] } (power_program e n t) = s
      at hg hp hon hoffc hlen hlive
    obtain ⟨l, hl, hlo⟩ := hlive k hkn hk_notin
    simp only [Sys.step, hl, lock_dtor_alive hg l hlo]
    refine ⟨_, (World.get_emit _ _ _).trans (get_release_power hg), ?_, ?_, ?_, ?_, ?_, ?_⟩
    · simp [hc]; ring
    · show (((uvc_endpoint.release_power s.world e).emit Event.flush).devices
          ep1._device).powered = _
      rw [World.devices_emit, device_release_power hg]
      by_cases h1 : ep1._user_count = 1
      · have : t.length + 1 = n := by rw [hc] at h1; omega
        simp [h1, uvc.uvc_device.power_off, this]
      · have : t.length + 1 < n := by
          rcases Nat.lt_or_ge (t.length + 1) n with hh | hh
          · exact hh
          · exfalso; apply h1; rw [hc]; omega
        simp [h1, hp, this]; omega
    · rw [calls_release_power_on hg, hon]
    · rw [calls_release_power_off hg, hoffc]
      by_cases h1 : ep1._user_count = 1
      · have : t.length + 1 = n := by rw [hc] at h1; omega
        have hne : t.length ≠ n := by omega
        have hpos : 0 < n := by omega
        simp [h1, this, hne, hpos]
      · have : t.length + 1 ≠ n := by
          intro hh; apply h1; rw [hc]; omega
        have hne : t.length ≠ n := by omega
        simp [h1, this, hne]
    · simp [hlen]
    · intro j hj hjt
      have hjk : j ≠ k := by
        intro hh; apply hjt; simp [hh]
      obtain ⟨l2, hl2, hlo2⟩ := hlive j hj (fun hh => hjt (by simp [hh]))
      refine ⟨l2, ?_, hlo2⟩
      rw [← hl2]
      simp [List.getElem?_set, Ne.symm hjk]

theorem countP_set_none {α : Type} (l : List (Option α)) (k : Nat) (x : α)
    (h : (l.get? k).join = some x) :
    (l.set k none).countP Option.isSome + 1 = l.countP Option.isSome := by
  induction l generalizing k with
  | nil => simp at h
  | cons a t ih =>
    cases k with
    | zero =>
      have ha : a = some x := by simpa using h
      subst ha
      simp [List.countP_cons]
    | succ k =>
      have ht : (t.get? k).join = some x := by simpa using h
      have := ih k ht
      simp only [List.set_cons_succ, List.countP_cons]
      omega

theorem run_interleaved {w : World} {e : Nat} {ep : uvc_endpoint} (h : w.get e = some ep)
    (h0 : ep._user_count = 0) (hoff : (w.devices ep._device).powered = false) (ops : List Op)
    (hops : ∀ op ∈ ops, op = Op.create (some e) ∨ ∃ k, op = Op.destroy k) :
    ∃ ep1, (Sys.run { world := w, locks := [] } ops).world.get e = some ep1 ∧
      ep1._user_count = ((Sys.run { world := w, locks := [] } ops).live : Int) ∧
      ((Sys.run { world := w, locks := [] } ops).world.devices ep1._device).powered =
        decide (0 < (Sys.run { world := w, locks := [] } ops).live) ∧
      ∀ k l, ((Sys.run { world := w, locks := [] } ops).locks.get? k).join = some l →
        l._power._owner = some e := by
  induction ops using List.reverseRecOn with
  | nil =>
    refine ⟨ep, h, ?_, ?_, ?_⟩
    · simp [Sys.run, Sys.live, h0]
    · simp [Sys.run, Sys.live, hoff]
    · intro k l hl
      simp [Sys.run] at hl
  | append_singleton ops op ih =>
    obtain ⟨ep1, hg, hc, hp, hown⟩ := ih (fun o ho => hops o (by simp [ho]))
    rw [Sys.run_snoc]
    generalize Sys.run { world := w, locks := [] } ops = s at hg hc hp hown
    rcases hops op (by simp) with rfl | ⟨k, rfl⟩
    · simp only [Sys.step, lock_ctor_alive hg]
      refine ⟨_, get_acquire_power hg, ?_, ?_, ?_⟩
      · simp [Sys.live, hc]
      · show ((uvc_endpoint.acquire_power s.world e).devices ep1._device).powered = _
        rw [device_acquire_power hg]
        by_cases hz : ep1._user_count = 0
        · simp [hz, Sys.live, uvc.uvc_device.power_on]
        · have hpos : 0 < s.live := by
            rcases Nat.eq_zero_or_pos s.live with h1 | h1
            · exfalso; apply hz; rw [hc, h1]; rfl
            · exact h1
          have hp1 : (s.world.devices ep1._device).powered = true := by rw [hp]; simp [hpos]
          simp [hz, hp1, Sys.live, List.countP_append]
      · intro j l hl
        by_cases hj : j < s.locks.length
        · apply hown j l
          rw [← hl]
          simp [List.getElem?_append_left, hj]
        · have hge : s.locks.length ≤ j := Nat.le_of_not_lt hj
          rw [List.get?_eq_getElem?, List.getElem?_append_right hge] at hl
          cases hd : j - s.locks.length with
          | zero =>
            rw [hd] at hl
            simp at hl
            rw [← hl]
          | succ d =>
            rw [hd] at hl
            simp at hl
    · cases hk : (s.locks.get? k).join with
      | none =>
        simp only [Sys.step, hk]
        exact ⟨ep1, hg, hc, hp, hown⟩
      | some l =>
        have hlo := hown k l hk
        have hlive := countP_set_none s.locks k l hk
        simp only [Sys.step, hk, lock_dtor_alive hg l hlo]
        refine ⟨_, (World.get_emit _ _ _).trans (get_release_power hg), ?_, ?_, ?_⟩
        · simp only [Sys.live] at hc ⊢
          simp only [hc]
          omega
        · show (((uvc_endpoint.release_power s.world e).emit Event.flush).devices
              ep1._device).powered = _
          rw [World.devices_emit, device_release_power hg]
          simp only [Sys.live] at hc hp ⊢
          by_cases h1 : ep1._user_count = 1
          · have : List.countP Option.isSome (s.locks.set k none) = 0 := by
              rw [hc] at h1; omega
            simp [h1, this, uvc.uvc_device.power_off]
          · have : 0 < List.countP Option.isSome (s.locks.set k none) := by
              rcases Nat.eq_zero_or_pos (List.countP Option.isSome (s.locks.set k none)) with hz | hz
              · exfalso; apply h1; rw [hc]; omega
              · exact hz
            have hpos : 0 < List.countP Option.isSome s.locks := by omega
            simp [h1, hp, this, hpos]
        · intro j l2 hl2
          by_cases hjk : k = j
          · subst hjk
            by_cases hlt : k < s.locks.length
            · simp [List.getElem?_set, hlt] at hl2
            · simp [List.getElem?_set, hlt] at hl2
          · apply hown j l2
            rw [← hl2]
            simp [List.getElem?_set, hjk]

theorem power_program_take (e N : Nat) (σ : List Nat) (k : Nat) :
    (power_program e N σ).take k = power_program e (min k N) (σ.take (k - N)) := by
  simp [power_program, List.take_append_eq_append_take, List.take_replicate, List.map_take]

theorem power_state_summary {w : World} {e : Nat} {ep : uvc_endpoint} (h : w.get e = some ep)
    (h0 : ep._user_count = 0) (hoff : (w.devices ep._device).powered = false) (N : Nat) (σ : List Nat)
    (hσ : σ.Perm (List.range N)) (k : Nat) (hk : k ≤ 2 * N) :
    (power_state w e N σ k).user_count e = (if k ≤ N then (k : Int) else 2 * (N : Int) - k) ∧
    (power_state w e N σ k).powered e = decide (0 < k ∧ k < 2 * N) ∧
    (power_state w e N σ k).calls (Event.power_on e) =
      w.calls (Event.power_on e) + (if 0 < k then 1 else 0) ∧
    (power_state w e N σ k).calls (Event.power_off e) =
      w.calls (Event.power_off e) + (if 0 < N ∧ k = 2 * N then 1 else 0) := by
  have hnd : σ.Nodup := hσ.nodup_iff.mpr (List.nodup_range N)
  have hlen : σ.length = N := by simpa using hσ.length_eq
  have hmem : ∀ j ∈ σ, j < N := fun j hj => List.mem_range.mp (hσ.subset hj)
  have hnd1 : (σ.take (k - N)).Nodup := hnd.sublist (List.take_sublist _ _)
  have hlt1 : ∀ j ∈ σ.take (k - N), j < min k N := by
    intro j hj
    have hjN := hmem j (List.mem_of_mem_take hj)
    by_cases hkN : k ≤ N
    · have : k - N = 0 := by omega
      rw [this] at hj
      simp at hj
    · have : min k N = N := by omega
      rw [this]; exact hjN
  obtain ⟨ep1, hg, hc, hp, hon, hoffc, -, -⟩ :=
    run_phases h h0 hoff (min k N) (σ.take (k - N)) hnd1 hlt1
  rw [← power_program_take] at hg hp hon hoffc
  have htl : (σ.take (k - N)).length = min (k - N) N := by
    rw [List.length_take, hlen]
  rw [htl] at hc hp hoffc
  unfold power_state World.user_count World.powered
  rw [hg]
  refine ⟨?_, ?_, ?_, ?_⟩
  · simp only [hc]
    by_cases hkN : k ≤ N
    · have h1 : min k N = k := by omega
      have h2 : min (k - N) N = 0 := by omega
      simp [hkN, h1, h2]
    · have h1 : min k N = N := by omega
      have h2 : min (k - N) N = k - N := by omega
      simp only [hkN, h1, h2, if_false]
      omega
  · simp only [hp]
    by_cases hkN : k ≤ N
    · have h1 : min k N = k := by omega
      have h2 : min (k - N) N = 0 := by omega
      simp only [h1, h2]
      by_cases hk0 : 0 < k
      · have : k < 2 * N := by omega
        simp [hk0, this]
      · simp [hk0]
    · have h1 : min k N = N := by omega
      have h2 : min (k - N) N = k - N := by omega
      simp only [h1, h2]
      have hk0 : 0 < k := by omega
      by_cases hk2 : k < 2 * N
      · have : k - N < N := by omega
        simp [hk0, hk2, this]
      · have : ¬ (k - N < N) := by omega
        simp [hk2, this]
  · rw [hon]
    by_cases hk0 : 0 < k
    · have : 0 < min k N ∨ N = 0 := by omega
      rcases this with hh | hh
      · simp [hk0, hh]
      · omega
    · have : min k N = 0 := by omega
      simp [hk0, this]
  · rw [hoffc]
    by_cases hkN : k ≤ N
    · have h1 : min k N = k := by omega
      have h2 : min (k - N) N = 0 := by omega
      simp only [h1, h2]
      by_cases hk0 : 0 < k
      · have e1 : ¬ (0 = k) := by omega
        have e2 : ¬ (k = 2 * N) := by omega
        simp [e1, e2]
      · have e2 : ¬ (0 < N ∧ k = 2 * N) := by omega
        simp [hk0, e2]
    · have h1 : min k N = N := by omega
      have h2 : min (k - N) N = k - N := by omega
      simp only [h1, h2]
      have hN0 : 0 < N := by omega
      by_cases hk2 : k = 2 * N
      · have : k - N = N := by omega
        rw [this]
        simp [hN0, hk2]
      · have : ¬ (k - N = N) := by omega
        simp [hk2, this]

/-! ## C1: power reference counting -/

/-- C1 (modelled `acquire_power` / `release_power`, guard from the header).
On a live endpoint `e` whose count is 0 and whose device is off, create `N ≥ 1`
streaming locks bound to `e` and then destroy them in any order `σ` (a
permutation of their numbers).  The program has `2 * N` steps.  After every
number `k` of steps the count is not negative and the device is powered
exactly when the count is positive; a step powers the device on exactly when
it takes the count from 0 to 1 and off exactly when it takes it from 1 to 0;
no power-off has happened before the last step, exactly one has happened
after it, and the count is then 0 with the device off.  More generally, after
any program that creates locks bound to `e` and destroys locks in whatever
interleaving, the count is the number of locks alive, hence not negative, and
the device is powered exactly when the count is positive. -/
theorem C1_power_reference_counting (w : World) (e : Nat) (ep : uvc_endpoint) (N : Nat)
    (σ : List Nat) (hep : w.get e = some ep) (h0 : ep._user_count = 0)
    (hoff : (w.devices ep._device).powered = false) (hN : 0 < N) (hσ : σ.Perm (List.range N)) :
    (power_program e N σ).length = 2 * N ∧
    (∀ k, k ≤ 2 * N →
      0 ≤ (power_state w e N σ k).user_count e ∧
      ((power_state w e N σ k).powered e = true ↔ 0 < (power_state w e N σ k).user_count e)) ∧
    (∀ k, k < 2 * N →
      (power_state w e N σ (k + 1)).calls (Event.power_on e) =
        (power_state w e N σ k).calls (Event.power_on e) +
          (if (power_state w e N σ k).user_count e = 0 ∧
              (power_state w e N σ (k + 1)).user_count e = 1 then 1 else 0) ∧
      (power_state w e N σ (k + 1)).calls (Event.power_off e) =
        (power_state w e N σ k).calls (Event.power_off e) +
          (if (power_state w e N σ k).user_count e = 1 ∧
              (power_state w e N σ (k + 1)).user_count e = 0 then 1 else 0)) ∧
    (∀ k, k < 2 * N →
      (power_state w e N σ k).calls (Event.power_off e) = w.calls (Event.power_off e)) ∧
    (power_state w e N σ (2 * N)).calls (Event.power_off e) = w.calls (Event.power_off e) + 1 ∧
    (power_state w e N σ (2 * N)).user_count e = 0 ∧
    (power_state w e N σ (2 * N)).powered e = false ∧
    (∀ ops : List Op, (∀ op ∈ ops, op = Op.create (some e) ∨ ∃ k, op = Op.destroy k) →
      (Sys.run { world := w, locks := [] } ops).world.user_count e =
        ((Sys.run { world := w, locks := [] } ops).live : Int) ∧
      ((Sys.run { world := w, locks := [] } ops).world.powered e = true ↔
        0 < (Sys.run { world := w, locks := [] } ops).world.user_count e)) := by
  have hlen : σ.length = N := by simpa using hσ.length_eq
  have S := fun k hk => power_state_summary hep h0 hoff N σ hσ k hk
  refine ⟨?_, ?_, ?_, ?_, ?_, ?_, ?_, ?_⟩
  · simp [power_program, hlen]; omega
  · intro k hk
    obtain ⟨hc, hp, -, -⟩ := S k hk
    rw [hc, hp]
    by_cases hkN : k ≤ N
    · simp only [hkN, if_true]
      constructor
      · exact_mod_cast Nat.zero_le k
      · simp only [decide_eq_true_eq]
        constructor
        · intro hh; exact_mod_cast hh.1
        · intro hh
          have : 0 < k := by exact_mod_cast hh
          omega
    · simp only [hkN, if_false]
      constructor
      · omega
      · simp only [decide_eq_true_eq]
        constructor
        · intro hh; omega
        · intro hh; omega
  · intro k hk
    obtain ⟨hc, -, hon, hof⟩ := S k (by omega)
    obtain ⟨hc1, -, hon1, hof1⟩ := S (k + 1) (by omega)
    rw [hc, hc1, hon, hon1, hof, hof1]
    constructor
    · by_cases hk0 : k = 0
      · subst hk0
        have : (0 + 1 : Nat) ≤ N := by omega
        simp [this]
      · have hpos : 0 < k := Nat.pos_of_ne_zero hk0
        have hne : ¬ ((if k ≤ N then (k : Int) else 2 * (N : Int) - k) = 0) := by
          split_ifs <;> omega
        simp [hpos, hne]
    · by_cases hk2 : k + 1 = 2 * N
      · have e1 : ¬ (k = 2 * N) := by omega
        have e2 : (if k ≤ N then (k : Int) else 2 * (N : Int) - k) = 1 := by
          split_ifs <;> omega
        have e3 : (if k + 1 ≤ N then ((k + 1 : Nat) : Int) else 2 * (N : Int) - (k + 1 : Nat)) = 0 := by
          split_ifs <;> omega
        rw [e2, e3]
        simp [e1, hk2, hN]
      · have e1 : ¬ (k = 2 * N) := by omega
        have e3 : ¬ ((if k + 1 ≤ N then ((k + 1 : Nat) : Int) else 2 * (N : Int) - (k + 1 : Nat)) = 0) := by
          split_ifs <;> omega
        rw [if_neg (fun hh => hk2 hh.2), if_neg (fun hh => e1 hh.2), if_neg (fun hh => e3 hh.2)]
  · intro k hk
    obtain ⟨-, -, -, hof⟩ := S k (by omega)
    rw [hof]
    have : ¬ (k = 2 * N) := by omega
    simp [this]
  · obtain ⟨-, -, -, hof⟩ := S (2 * N) (le_refl _)
    rw [hof]; simp [hN]
  · obtain ⟨hc, -, -, -⟩ := S (2 * N) (le_refl _)
    rw [hc]
    have : ¬ (2 * N ≤ N) := by omega
    simp [this]
  · obtain ⟨-, hp, -, -⟩ := S (2 * N) (le_refl _)
    rw [hp]; simp
  · intro ops hops
    obtain ⟨ep1, hg, hc, hp, -⟩ := run_interleaved hep h0 hoff ops hops
    simp only [World.user_count, World.powered, hg, hc, hp, decide_eq_true_eq]
    exact ⟨trivial, by constructor <;> intro hh <;> exact_mod_cast hh⟩

/-- Witness for C1: two locks on the scenario endpoint, destroyed in the order
second, first. -/
theorem C1_power_reference_counting_witness :
    scenario_world.get 0 = some scenario_endpoint ∧
    (0 : Nat) < 2 ∧ [1, 0].Perm (List.range 2) ∧
    (power_state scenario_world 0 2 [1, 0] (2 * 2)).calls (Event.power_off 0) =
      scenario_world.calls (Event.power_off 0) + 1 ∧
    (power_state scenario_world 0 2 [1, 0] (2 * 2)).user_count 0 = 0 :=
  ⟨rfl, by decide, by decide,
    (C1_power_reference_counting scenario_world 0 scenario_endpoint 2 [1, 0] rfl rfl rfl
      (by decide) (by decide)).2.2.2.2.1,
    (C1_power_reference_counting scenario_world 0 scenario_endpoint 2 [1, 0] rfl rfl rfl
      (by decide) (by decide)).2.2.2.2.2.1⟩


/-! ## Expired owners stay expired -/

theorem World.get_expire_self (w : World) (i : Nat) : (w.expire i).get i = none := by
  by_cases hlt : i < w.endpoints.length
  · simp [World.get, World.expire, List.getElem?_set, hlt]
  · simp [World.get, World.expire, List.getElem?_set, hlt]

theorem World.get_expire_ne (w : World) {i j : Nat} (h : i ≠ j) :
    (w.expire i).get j = w.get j := by
  simp [World.get, World.expire, List.getElem?_set, h]

theorem World.lock_expire (w : World) (i : Nat) : (w.expire i).lock (some i) = none := by
  simp [World.lock, World.get_expire_self]

theorem step_get_none {w1 w2 : World} (hs : World.Step w1 w2) {i : Nat}
    (h : w1.get i = none) : w2.get i = none := by
  cases hs with
  | emit e => exact h
  | setdev a d => exact h
  | put j ep hj =>
    by_cases hji : j = i
    · subst hji; simp [h] at hj
    · rw [World.get_put_ne _ _ hji]; exact h
  | expire j =>
    by_cases hji : j = i
    · subst hji; exact World.get_expire_self _ _
    · rw [World.get_expire_ne _ hji]; exact h

theorem reach_get_none {w1 w2 : World} (hr : World.Reach w1 w2) {i : Nat}
    (h : w1.get i = none) : w2.get i = none := by
  induction hr with
  | refl => exact h
  | tail _ hs ih => exact step_get_none hs ih

theorem World.lock_eq_none_iff (w : World) (p : weak_ptr) :
    w.lock p = none ↔ ∀ i, p = some i → w.get i = none := by
  cases p with
  | none => simp [World.lock]
  | some i =>
    cases hg : w.get i <;> simp [World.lock, hg]

theorem reach_lock_none {w1 w2 : World} (hr : World.Reach w1 w2) {p : weak_ptr}
    (h : w1.lock p = none) : w2.lock p = none := by
  rw [World.lock_eq_none_iff] at h ⊢
  intro i hi
  exact reach_get_none hr (h i hi)

theorem reach_emit (w : World) (ev : Event) : World.Reach w (w.emit ev) :=
  Relation.ReflTransGen.single (World.Step.emit w ev)

theorem reach_trans {a b c : World} (h1 : World.Reach a b) (h2 : World.Reach b c) :
    World.Reach a c :=
  Relation.ReflTransGen.trans h1 h2

theorem reach_setdev (w : World) (a : Nat) (d : uvc.uvc_device) :
    World.Reach w (w.setdev a d) :=
  Relation.ReflTransGen.single (World.Step.setdev w a d)

theorem reach_put {w : World} {i : Nat} {ep0 : uvc_endpoint} (h : w.get i = some ep0)
    (ep : uvc_endpoint) : World.Reach w (w.put i ep) :=
  Relation.ReflTransGen.single (World.Step.put w i ep (by simp [h]))

theorem reach_acquire_power (w : World) (e : Nat) :
    World.Reach w (uvc_endpoint.acquire_power w e) := by
  unfold uvc_endpoint.acquire_power
  cases hg : w.get e with
  | none => exact Relation.ReflTransGen.refl
  | some ep =>
    have h1 : (w.emit (Event.acquire_power e)).get e = some ep := hg
    have h2 : (((w.emit (Event.acquire_power e)).emit (Event.power_on e)).setdev ep._device
        (w.devices ep._device).power_on).get e = some ep := hg
    by_cases hc : ep._user_count = 0
    · simp only [hc, if_true]
      exact reach_trans (reach_trans (reach_trans (reach_emit _ _) (reach_emit _ _))
        (reach_setdev _ _ _)) (reach_put h2 _)
    · simp only [hc, if_false]
      exact reach_trans (reach_emit _ _) (reach_put h1 _)

theorem reach_release_power (w : World) (e : Nat) :
    World.Reach w (uvc_endpoint.release_power w e) := by
  unfold uvc_endpoint.release_power
  cases hg : w.get e with
  | none => exact Relation.ReflTransGen.refl
  | some ep =>
    have h1 : (w.emit (Event.release_power e)).get e = some ep := hg
    have h2 : (((w.emit (Event.release_power e)).emit (Event.power_off e)).setdev ep._device
        (w.devices ep._device).power_off).get e = some ep := hg
    by_cases hc : ep._user_count = 1
    · simp only [hc, if_true]
      exact reach_trans (reach_trans (reach_trans (reach_emit _ _) (reach_emit _ _))
        (reach_setdev _ _ _)) (reach_put h2 _)
    · simp only [hc, if_false]
      exact reach_trans (reach_emit _ _) (reach_put h1 _)

theorem reach_stop_streaming (w : World) (e : Nat) :
    World.Reach w (uvc_endpoint.stop_streaming w e) := by
  unfold uvc_endpoint.stop_streaming
  cases hg : w.get e with
  | none => exact Relation.ReflTransGen.refl
  | some ep =>
    exact reach_trans (reach_trans (reach_emit _ _) (reach_emit _ _)) (reach_setdev _ _ _)

theorem reach_power_ctor (w : World) (owner : weak_ptr) :
    World.Reach w (uvc_endpoint.power.ctor w owner).2 := by
  unfold uvc_endpoint.power.ctor
  cases w.lock owner with
  | none => exact Relation.ReflTransGen.refl
  | some i => exact reach_acquire_power w i

theorem reach_power_dtor (w : World) (p : uvc_endpoint.power) :
    World.Reach w (uvc_endpoint.power.dtor w p) := by
  unfold uvc_endpoint.power.dtor
  cases w.lock p._owner with
  | none => exact Relation.ReflTransGen.refl
  | some i => exact reach_release_power w i

theorem reach_lock_ctor (w : World) (owner : weak_ptr) :
    World.Reach w (uvc_endpoint.uvc_streaming_lock.ctor w owner).2 :=
  reach_power_ctor w owner

theorem reach_lock_dtor (w : World) (l : uvc_endpoint.uvc_streaming_lock) :
    World.Reach w (uvc_endpoint.uvc_streaming_lock.dtor w l) :=
  reach_trans (reach_power_dtor w l._power) (reach_emit _ _)

theorem reach_lock_stop (w : World) (l : uvc_endpoint.uvc_streaming_lock) :
    World.Reach w (uvc_endpoint.uvc_streaming_lock.stop w l).2 := by
  unfold uvc_endpoint.uvc_streaming_lock.stop
  have hb : World.Reach w (streaming_lock.stop w l.tostreaming_lock).2 := reach_emit _ _
  simp only
  cases h : (streaming_lock.stop w l.tostreaming_lock).2.lock l._owner with
  | none => exact hb
  | some i => exact reach_trans hb (reach_stop_streaming _ i)

theorem reach_invoke_powered {T : Type} (w : World) (self : Nat)
    (action : uvc.uvc_device → Except Error T × uvc.uvc_device) :
    World.Reach w (uvc_endpoint.invoke_powered w self action).2 := by
  unfold uvc_endpoint.invoke_powered
  cases hg : w.get self with
  | none => exact Relation.ReflTransGen.refl
  | some ep0 =>
    exact reach_trans (reach_trans (reach_power_ctor _ _) (reach_setdev _ _ _))
      (reach_power_dtor _ _)

theorem reach_configure (w : World) (self : Nat) (requests : List stream_request) :
    World.Reach w (uvc_endpoint.configure w self requests).2 := by
  unfold uvc_endpoint.configure
  cases hg : w.get self with
  | none => exact Relation.ReflTransGen.refl
  | some ep0 =>
    simp only
    cases hr : ep0.toendpoint.resolve_requests (ep0.get_stream_profiles w) requests with
    | error err => exact Relation.ReflTransGen.refl
    | ok mappings =>
      simp only
      cases hs : uvc.uvc_device.start_capture
          (((uvc_endpoint.uvc_streaming_lock.ctor w (some self)).2.emit
            (Event.start_capture self)).devices ep0._device)
          (mappings.map (fun m => m.profile)) with
      | error err =>
        exact reach_trans (reach_trans (reach_lock_ctor _ _) (reach_emit _ _))
          (reach_lock_dtor _ _)
      | ok d =>
        exact reach_trans (reach_trans (reach_lock_ctor _ _) (reach_emit _ _))
          (reach_setdev _ _ _)

/-! ## C2, C3: the guard and the lock on live and on expired owners -/

theorem user_count_acquire_power {w : World} {e : Nat} {ep : uvc_endpoint}
    (h : w.get e = some ep) :
    (uvc_endpoint.acquire_power w e).user_count e = ep._user_count + 1 := by
  simp [World.user_count, get_acquire_power h]

theorem user_count_release_power {w : World} {e : Nat} {ep : uvc_endpoint}
    (h : w.get e = some ep) :
    (uvc_endpoint.release_power w e).user_count e = ep._user_count - 1 := by
  simp [World.user_count, get_release_power h]

theorem power_ctor_expired {w : World} {owner : weak_ptr} (h : w.lock owner = none) :
    uvc_endpoint.power.ctor w owner = ({ _owner := owner }, w) := by
  simp [uvc_endpoint.power.ctor, h]

theorem power_dtor_expired {w : World} {p : uvc_endpoint.power} (h : w.lock p._owner = none) :
    uvc_endpoint.power.dtor w p = w := by
  simp [uvc_endpoint.power.dtor, h]

theorem power_ctor_owner (w : World) (owner : weak_ptr) :
    (uvc_endpoint.power.ctor w owner).1._owner = owner := by
  unfold uvc_endpoint.power.ctor
  cases w.lock owner <;> rfl

theorem power_ctor_silent_iff (w : World) (owner : weak_ptr) :
    (uvc_endpoint.power.ctor w owner).2.trace = w.trace ↔ w.lock owner = none := by
  constructor
  · intro ht
    cases hl : w.lock owner with
    | none => rfl
    | some i =>
      exfalso
      cases owner with
      | none => simp [World.lock] at hl
      | some j =>
        cases hg : w.get j with
        | none => simp [World.lock, hg] at hl
        | some ep =>
          have hij : j = i := by simpa [World.lock, hg] using hl
          subst hij
          rw [power_ctor_alive hg] at ht
          have hlen := congrArg List.length ht
          rw [trace_acquire_power hg] at hlen
          simp at hlen
  · intro hl
    rw [power_ctor_expired hl]

/-- C2 (guard and lock from the header, `acquire_power` / `release_power`
modelled).  On an endpoint `e` that is alive: constructing a
`uvc_streaming_lock` bound to `e` makes exactly one call, `acquire_power` on
`e` (followed by the transport power-on it causes when the count was 0), and
raises the count by one; destroying that lock in any world in which `e` is
alive makes exactly one `release_power` call on `e` (followed by the power-off
it causes when the count was 1, and by the flush of the base destructor), and
lowers the count by one; so creating and then destroying a lock leaves the
count as it was.  For any guard: its construction makes no call exactly when
its owner was expired, and then the owner is still expired in every later
world and the destructor does nothing there. -/
theorem C2_lock_acquires_and_releases_once (w : World) (e : Nat) (ep : uvc_endpoint)
    (hep : w.get e = some ep) :
    (uvc_endpoint.uvc_streaming_lock.ctor w (some e)).2.trace =
      w.trace ++ Event.acquire_power e ::
        (if ep._user_count = 0 then [Event.power_on e] else []) ∧
    (uvc_endpoint.uvc_streaming_lock.ctor w (some e)).2.user_count e = ep._user_count + 1 ∧
    (∀ (w1 : World) (ep1 : uvc_endpoint), w1.get e = some ep1 →
      (uvc_endpoint.uvc_streaming_lock.dtor w1
          (uvc_endpoint.uvc_streaming_lock.ctor w (some e)).1).trace =
        w1.trace ++ Event.release_power e ::
          (if ep1._user_count = 1 then [Event.power_off e] else []) ++ [Event.flush] ∧
      (uvc_endpoint.uvc_streaming_lock.dtor w1
          (uvc_endpoint.uvc_streaming_lock.ctor w (some e)).1).user_count e =
        ep1._user_count - 1) ∧
    (uvc_endpoint.uvc_streaming_lock.dtor
        (uvc_endpoint.uvc_streaming_lock.ctor w (some e)).2
        (uvc_endpoint.uvc_streaming_lock.ctor w (some e)).1).user_count e = ep._user_count ∧
    (∀ (w0 : World) (owner : weak_ptr),
      ((uvc_endpoint.power.ctor w0 owner).2.trace = w0.trace ↔ w0.lock owner = none) ∧
      ∀ w1 : World, w0.lock owner = none → World.Reach (uvc_endpoint.power.ctor w0 owner).2 w1 →
        w1.lock owner = none ∧
        uvc_endpoint.power.dtor w1 (uvc_endpoint.power.ctor w0 owner).1 = w1) := by
  have hd : ∀ (w1 : World) (ep1 : uvc_endpoint), w1.get e = some ep1 →
      (uvc_endpoint.uvc_streaming_lock.dtor w1
          (uvc_endpoint.uvc_streaming_lock.ctor w (some e)).1).trace =
        w1.trace ++ Event.release_power e ::
          (if ep1._user_count = 1 then [Event.power_off e] else []) ++ [Event.flush] ∧
      (uvc_endpoint.uvc_streaming_lock.dtor w1
          (uvc_endpoint.uvc_streaming_lock.ctor w (some e)).1).user_count e =
        ep1._user_count - 1 := by
    intro w1 ep1 h1
    rw [lock_ctor_alive hep, lock_dtor_alive h1 _ rfl]
    constructor
    · rw [World.trace_emit, trace_release_power h1]
    · have := user_count_release_power h1
      simpa [World.user_count, World.get_emit] using this
  refine ⟨?_, ?_, hd, ?_, ?_⟩
  · rw [lock_ctor_alive hep, trace_acquire_power hep]
  · rw [lock_ctor_alive hep, user_count_acquire_power hep]
  · have hg := get_acquire_power hep
    have h2 := (hd (uvc_endpoint.acquire_power w e) _ hg).2
    rw [lock_ctor_alive hep] at h2 ⊢
    rw [h2]
    simp
  · intro w0 owner
    refine ⟨power_ctor_silent_iff w0 owner, ?_⟩
    intro w1 hexp hreach
    have h1 : w1.lock owner = none := by
      rw [power_ctor_expired hexp] at hreach
      exact reach_lock_none hreach hexp
    refine ⟨h1, ?_⟩
    apply power_dtor_expired
    rw [power_ctor_owner]
    exact h1

/-- Witness for C2: the scenario endpoint is alive; a lock created on it and
destroyed again leaves the count at 0, and a guard built on the endpoint after
its destruction does nothing when it is destroyed. -/
theorem C2_lock_acquires_and_releases_once_witness :
    scenario_world.get 0 = some scenario_endpoint ∧
    (uvc_endpoint.uvc_streaming_lock.dtor
        (uvc_endpoint.uvc_streaming_lock.ctor scenario_world (some 0)).2
        (uvc_endpoint.uvc_streaming_lock.ctor scenario_world (some 0)).1).user_count 0 =
      scenario_endpoint._user_count ∧
    uvc_endpoint.power.dtor (scenario_world.expire 0)
        (uvc_endpoint.power.ctor (scenario_world.expire 0) (some 0)).1 =
      scenario_world.expire 0 :=
  ⟨rfl,
    (C2_lock_acquires_and_releases_once scenario_world 0 scenario_endpoint rfl).2.2.2.1,
    (((C2_lock_acquires_and_releases_once scenario_world 0 scenario_endpoint rfl).2.2.2.2
        (scenario_world.expire 0) (some 0)).2 (scenario_world.expire 0)
        (World.lock_expire scenario_world 0) Relation.ReflTransGen.refl).2⟩

/-- C3 (override and guard from the header, base `stop` modelled).  When the
owner of a `uvc_streaming_lock` is expired, `stop()` is exactly the base
`streaming_lock::stop()`: the flag is cleared, the callback released, one
flush is logged, nothing else is called, no endpoint and no device changes,
and there is no error to report (the result is a plain value).  Destroying a guard whose owner
is expired changes nothing and calls nothing. -/
theorem C3_stale_owner_is_noop (w : World) (l : uvc_endpoint.uvc_streaming_lock)
    (p : uvc_endpoint.power) (hl : w.lock l._owner = none) (hp : w.lock p._owner = none) :
    uvc_endpoint.uvc_streaming_lock.stop w l =
      ({ l with _is_streaming := false, _callback := none }, w.emit Event.flush) ∧
    (uvc_endpoint.uvc_streaming_lock.stop w l).2 =
      (streaming_lock.stop w l.tostreaming_lock).2 ∧
    (uvc_endpoint.uvc_streaming_lock.stop w l).1.tostreaming_lock =
      (streaming_lock.stop w l.tostreaming_lock).1 ∧
    (uvc_endpoint.uvc_streaming_lock.stop w l).2.trace = w.trace ++ [Event.flush] ∧
    (uvc_endpoint.uvc_streaming_lock.stop w l).2.endpoints = w.endpoints ∧
    (uvc_endpoint.uvc_streaming_lock.stop w l).2.devices = w.devices ∧
    uvc_endpoint.power.dtor w p = w := by
  have hl2 : (streaming_lock.stop w l.tostreaming_lock).2.lock l._owner = none := hl
  have hstop : uvc_endpoint.uvc_streaming_lock.stop w l =
      ({ l with _is_streaming := false, _callback := none }, w.emit Event.flush) := by
    unfold uvc_endpoint.uvc_streaming_lock.stop
    simp only [hl2]
    rfl
  refine ⟨hstop, ?_, ?_, ?_, ?_, ?_, power_dtor_expired hp⟩
  · rw [hstop]; rfl
  · rw [hstop]; rfl
  · rw [hstop]; rfl
  · rw [hstop]; rfl
  · rw [hstop]; rfl

/-- Witness for C3: a streaming lock and its guard, bound to the scenario
endpoint, after that endpoint has been destroyed. -/
theorem C3_stale_owner_is_noop_witness :
    (scenario_world.expire 0).lock (some 0) = none ∧
    (uvc_endpoint.uvc_streaming_lock.stop (scenario_world.expire 0)
        { _is_streaming := true, _callback := some 7, _owner := some 0,
          _power := { _owner := some 0 } }).2.trace = [Event.flush] ∧
    uvc_endpoint.power.dtor (scenario_world.expire 0) { _owner := some 0 } =
      scenario_world.expire 0 :=
  ⟨World.lock_expire scenario_world 0,
   (C3_stale_owner_is_noop (scenario_world.expire 0)
      { _is_streaming := true, _callback := some 7, _owner := some 0,
        _power := { _owner := some 0 } } { _owner := some 0 }
      (World.lock_expire scenario_world 0) (World.lock_expire scenario_world 0)).2.2.2.1,
   (C3_stale_owner_is_noop (scenario_world.expire 0)
      { _is_streaming := true, _callback := some 7, _owner := some 0,
        _power := { _owner := some 0 } } { _owner := some 0 }
      (World.lock_expire scenario_world 0) (World.lock_expire scenario_world 0)).2.2.2.2.2.2⟩


/-! ## C4: destroying a streaming lock without `stop()` -/

theorem streaming_world_from_configure :
    (uvc_endpoint.configure scenario_world 0 [scenario_request]).2.endpoints =
      streaming_world.endpoints ∧
    (uvc_endpoint.configure scenario_world 0 [scenario_request]).2.devices 0 =
      streaming_world.devices 0 ∧
    (uvc_endpoint.configure scenario_world 0 [scenario_request]).1.toOption.bind
        (fun l => (l.tostreaming_lock.play (some 7)).toOption.map
          (fun b => ({ l with tostreaming_lock := b } : uvc_endpoint.uvc_streaming_lock))) =
      some streaming_lock_held := by
  refine ⟨?_, ?_, ?_⟩ <;> decide

/-- C4 (implicit destructor from the header, base destructor modelled).  The
lock of a running stream (count 1, device powered and capturing) is destroyed
without a prior `stop()`.  The destructor releases the power reference first
(the `_power` member goes before the base class), then the base destructor
flushes; `stop_streaming` is never called and the device is left capturing
while powered off.  Calling `stop()` and then destroying the lock flushes,
notifies the endpoint, halts capture and only then releases power. -/
theorem C4_destroy_is_not_stop_then_release :
    (uvc_endpoint.uvc_streaming_lock.dtor streaming_world streaming_lock_held).trace =
      [Event.release_power 0, Event.power_off 0, Event.flush] ∧
    (uvc_endpoint.uvc_streaming_lock.dtor streaming_world streaming_lock_held).capturing 0 = true ∧
    (uvc_endpoint.uvc_streaming_lock.dtor streaming_world streaming_lock_held).powered 0 = false ∧
    (uvc_endpoint.uvc_streaming_lock.dtor
        (uvc_endpoint.uvc_streaming_lock.stop streaming_world streaming_lock_held).2
        (uvc_endpoint.uvc_streaming_lock.stop streaming_world streaming_lock_held).1).trace =
      [Event.flush, Event.stop_streaming 0, Event.stop_capture 0,
       Event.release_power 0, Event.power_off 0, Event.flush] ∧
    (uvc_endpoint.uvc_streaming_lock.dtor
        (uvc_endpoint.uvc_streaming_lock.stop streaming_world streaming_lock_held).2
        (uvc_endpoint.uvc_streaming_lock.stop streaming_world streaming_lock_held).1).capturing 0 =
      false := by
  refine ⟨?_, ?_, ?_, ?_, ?_⟩ <;> decide

/-! ## C5: `stop()` is idempotent -/

theorem stop_streaming_eq {w : World} {e : Nat} {ep : uvc_endpoint} (h : w.get e = some ep) :
    uvc_endpoint.stop_streaming w e =
      { devices := fun b =>
          if b = ep._device then (w.devices ep._device).stop_capture else w.devices b,
        endpoints := w.endpoints,
        trace := w.trace ++ [Event.stop_streaming e, Event.stop_capture e] } := by
  unfold uvc_endpoint.stop_streaming
  rw [h]
  simp [World.setdev, World.emit]

theorem get_stop_streaming (w : World) (e i : Nat) :
    (uvc_endpoint.stop_streaming w e).get i = w.get i := by
  cases hg : w.get e with
  | none => unfold uvc_endpoint.stop_streaming; rw [hg]
  | some ep => rw [stop_streaming_eq hg]; rfl

theorem stop_streaming_twice (w : World) (e : Nat) :
    (uvc_endpoint.stop_streaming ((uvc_endpoint.stop_streaming w e).emit Event.flush) e).endpoints =
      (uvc_endpoint.stop_streaming w e).endpoints ∧
    (uvc_endpoint.stop_streaming ((uvc_endpoint.stop_streaming w e).emit Event.flush) e).devices =
      (uvc_endpoint.stop_streaming w e).devices := by
  cases hg : w.get e with
  | none =>
    have h1 : uvc_endpoint.stop_streaming w e = w := by
      unfold uvc_endpoint.stop_streaming; rw [hg]
    rw [h1]
    have h2 : (w.emit Event.flush).get e = none := hg
    unfold uvc_endpoint.stop_streaming
    rw [h2]
    exact ⟨rfl, rfl⟩
  | some ep =>
    have h2 : ((uvc_endpoint.stop_streaming w e).emit Event.flush).get e = some ep := by
      rw [World.get_emit, get_stop_streaming]; exact hg
    rw [stop_streaming_eq h2, stop_streaming_eq hg]
    refine ⟨rfl, ?_⟩
    funext b
    by_cases hb : b = ep._device <;> simp [World.emit, hb, uvc.uvc_device.stop_capture]

/-- C5 (base `stop` modelled, override from the header).  From every state of a
`streaming_lock` and of a `uvc_streaming_lock`, in every world, `stop()`
returns (it is a total function with no error result) a lock that is not
streaming and stores no callback; a second `stop()` returns the same lock and
leaves every endpoint and every device as the first call left them.  Only
the ghost log grows. -/
theorem C5_stop_idempotent (w : World) (b : streaming_lock)
    (l : uvc_endpoint.uvc_streaming_lock) :
    ((streaming_lock.stop w b).1.is_streaming = false ∧
     (streaming_lock.stop w b).1._callback = none ∧
     (streaming_lock.stop (streaming_lock.stop w b).2 (streaming_lock.stop w b).1).1 =
       (streaming_lock.stop w b).1 ∧
     (streaming_lock.stop (streaming_lock.stop w b).2 (streaming_lock.stop w b).1).2.endpoints =
       (streaming_lock.stop w b).2.endpoints ∧
     (streaming_lock.stop (streaming_lock.stop w b).2 (streaming_lock.stop w b).1).2.devices =
       (streaming_lock.stop w b).2.devices) ∧
    ((uvc_endpoint.uvc_streaming_lock.stop w l).1.is_streaming = false ∧
     (uvc_endpoint.uvc_streaming_lock.stop w l).1._callback = none ∧
     (uvc_endpoint.uvc_streaming_lock.stop (uvc_endpoint.uvc_streaming_lock.stop w l).2
         (uvc_endpoint.uvc_streaming_lock.stop w l).1).1 =
       (uvc_endpoint.uvc_streaming_lock.stop w l).1 ∧
     (uvc_endpoint.uvc_streaming_lock.stop (uvc_endpoint.uvc_streaming_lock.stop w l).2
         (uvc_endpoint.uvc_streaming_lock.stop w l).1).2.endpoints =
       (uvc_endpoint.uvc_streaming_lock.stop w l).2.endpoints ∧
     (uvc_endpoint.uvc_streaming_lock.stop (uvc_endpoint.uvc_streaming_lock.stop w l).2
         (uvc_endpoint.uvc_streaming_lock.stop w l).1).2.devices =
       (uvc_endpoint.uvc_streaming_lock.stop w l).2.devices) := by
  refine ⟨⟨rfl, rfl, rfl, rfl, rfl⟩, ?_⟩
  have hlock : ∀ w2 : World, (w2.emit Event.flush).lock l._owner = w2.lock l._owner := fun _ => rfl
  cases hl : w.lock l._owner with
  | none =>
    have h1 : uvc_endpoint.uvc_streaming_lock.stop w l =
        ({ l with _is_streaming := false, _callback := none }, w.emit Event.flush) := by
      unfold uvc_endpoint.uvc_streaming_lock.stop
      have : (streaming_lock.stop w l.tostreaming_lock).2.lock l._owner = none := hl
      simp only [this]; rfl
    have h2 : uvc_endpoint.uvc_streaming_lock.stop (w.emit Event.flush)
          ({ l with _is_streaming := false, _callback := none } :
            uvc_endpoint.uvc_streaming_lock) =
        ({ l with _is_streaming := false, _callback := none },
          (w.emit Event.flush).emit Event.flush) := by
      unfold uvc_endpoint.uvc_streaming_lock.stop
      have : (streaming_lock.stop (w.emit Event.flush)
          ({ l with _is_streaming := false, _callback := none } :
            uvc_endpoint.uvc_streaming_lock).tostreaming_lock).2.lock l._owner = none := hl
      simp only [this]; rfl
    rw [h1, h2]
    exact ⟨rfl, rfl, rfl, rfl, rfl⟩
  | some e =>
    have h1 : uvc_endpoint.uvc_streaming_lock.stop w l =
        ({ l with _is_streaming := false, _callback := none },
          uvc_endpoint.stop_streaming (w.emit Event.flush) e) := by
      unfold uvc_endpoint.uvc_streaming_lock.stop
      have : (streaming_lock.stop w l.tostreaming_lock).2.lock l._owner = some e := hl
      simp only [this]; rfl
    have halive : ∃ ep, w.get e = some ep ∧ l._owner = some e := by
      cases ho : l._owner with
      | none => rw [ho] at hl; simp [World.lock] at hl
      | some j =>
        rw [ho] at hl
        cases hg : w.get j with
        | none => simp [World.lock, hg] at hl
        | some ep =>
          have : j = e := by simpa [World.lock, hg] using hl
          subst this
          exact ⟨ep, hg, rfl⟩
    obtain ⟨ep, hg, ho⟩ := halive
    have hg1 : (uvc_endpoint.stop_streaming (w.emit Event.flush) e).get e = some ep := by
      rw [get_stop_streaming]; exact hg
    have hl2 : ((uvc_endpoint.stop_streaming (w.emit Event.flush) e).emit Event.flush).lock
        l._owner = some e := by
      rw [ho]
      exact @World.lock_alive _ e _ hg1
    have h2 : uvc_endpoint.uvc_streaming_lock.stop
          (uvc_endpoint.stop_streaming (w.emit Event.flush) e)
          ({ l with _is_streaming := false, _callback := none } :
            uvc_endpoint.uvc_streaming_lock) =
        ({ l with _is_streaming := false, _callback := none },
          uvc_endpoint.stop_streaming
            ((uvc_endpoint.stop_streaming (w.emit Event.flush) e).emit Event.flush) e) := by
      unfold uvc_endpoint.uvc_streaming_lock.stop
      have : (streaming_lock.stop (uvc_endpoint.stop_streaming (w.emit Event.flush) e)
          ({ l with _is_streaming := false, _callback := none } :
            uvc_endpoint.uvc_streaming_lock).tostreaming_lock).2.lock l._owner = some e := hl2
      simp only [this]; rfl
    rw [h1, h2]
    exact ⟨rfl, rfl, rfl, (stop_streaming_twice (w.emit Event.flush) e).1,
      (stop_streaming_twice (w.emit Event.flush) e).2⟩

/-! ## C6: `register_pixel_format` -/

/-- C6 (from the header).  `register_pixel_format(pf)` turns the table `t` into
`t` followed by `pf`, whether or not `pf` is already in `t`: the length grows
by one, every earlier entry keeps its position, and `pf` is the last entry. -/
theorem C6_register_pixel_format_appends (e : endpoint) (pf : native_pixel_format) :
    (e.register_pixel_format pf)._pixel_formats = e._pixel_formats ++ [pf] ∧
    (e.register_pixel_format pf)._pixel_formats.length = e._pixel_formats.length + 1 ∧
    (∀ i, i < e._pixel_formats.length →
      (e.register_pixel_format pf)._pixel_formats.get? i = e._pixel_formats.get? i) ∧
    (e.register_pixel_format pf)._pixel_formats.getLast? = some pf ∧
    (e.register_pixel_format pf)._pixel_formats.count pf = e._pixel_formats.count pf + 1 := by
  refine ⟨rfl, ?_, ?_, ?_, ?_⟩
  · simp [endpoint.register_pixel_format]
  · intro i hi
    simp [endpoint.register_pixel_format, List.getElem?_append_left, hi]
  · simp [endpoint.register_pixel_format]
  · simp [endpoint.register_pixel_format]


/-! ## C10: `invoke_powered` -/

theorem auto_complete_scenario :
    scenario_endpoint.toendpoint.auto_complete_one
      (scenario_endpoint.get_stream_profiles scenario_world)
      { format := some RGB8, width := some 640, height := none, fps := none } =
      some scenario_request ∧
    scenario_endpoint.toendpoint.resolve_requests
      (scenario_endpoint.get_stream_profiles scenario_world)
      [{ format := some RGB8, width := some 640, height := none, fps := none },
       { format := some RGB8, width := none, height := none, fps := none }] =
      Except.ok
        [{ request := scenario_request,
           profile := { format := YUV, width := 640, height := 480, fps := 30 },
           format := RGB8 },
         { request := { format := some RGB8, width := some 1280, height := some 720,
                        fps := some 15 },
           profile := { format := YUV, width := 1280, height := 720, fps := 15 },
           format := RGB8 }] ∧
    scenario_endpoint.toendpoint.resolve_requests
      (scenario_endpoint.get_stream_profiles scenario_world) [unmatched_request] =
      Except.error Error.InvalidRequest := by
  refine ⟨?_, ?_, ?_⟩ <;> rfl

theorem repeated_registrations :
    (endpoint.mk [{ fourcc := YUV, outputs := [RGB8] }, { fourcc := YUV, outputs := [101] }]).resolve_one
      (scenario_endpoint.get_stream_profiles scenario_world) scenario_request =
      some { request := scenario_request,
             profile := { format := YUV, width := 640, height := 480, fps := 30 },
             format := RGB8 } ∧
    (endpoint.mk [{ fourcc := YUV, outputs := [RGB8] }, { fourcc := YUV, outputs := [101] }]).auto_complete_one
      (scenario_endpoint.get_stream_profiles scenario_world)
      { format := none, width := some 640, height := none, fps := none } =
      some scenario_request ∧
    (endpoint.mk [{ fourcc := YUV, outputs := [RGB8] }, { fourcc := YUV, outputs := [] }]).get_principal_requests
      (scenario_endpoint.get_stream_profiles scenario_world) =
      [scenario_request,
       { format := some RGB8, width := some 1280, height := some 720, fps := some 15 }] := by
  refine ⟨rfl, rfl, by decide⟩

/-! ## C8: `get_principal_requests` -/

/-- C8 (`get_principal_requests` modelled).  For every pixel-format table and
every native profile list, repeated entries included, no two requests of the
result have the same format, width, height and frame rate.  On the scenario
endpoint the result is the two requests (RGB8,640,480,30) and
(RGB8,1280,720,15), also when each profile is listed twice. -/
theorem C8_principal_requests_distinct (e : endpoint) (profiles : List uvc.stream_profile) :
    (e.get_principal_requests profiles).Nodup ∧
    (e.get_principal_requests profiles).Pairwise (fun a b =>
      ¬ (a.format = b.format ∧ a.width = b.width ∧ a.height = b.height ∧ a.fps = b.fps)) ∧
    scenario_endpoint.toendpoint.get_principal_requests
        (scenario_endpoint.get_stream_profiles scenario_world) =
      [scenario_request,
       { format := some RGB8, width := some 1280, height := some 720, fps := some 15 }] ∧
    scenario_endpoint.toendpoint.get_principal_requests
        (scenario_endpoint.get_stream_profiles scenario_world ++
          scenario_endpoint.get_stream_profiles scenario_world) =
      [scenario_request,
       { format := some RGB8, width := some 1280, height := some 720, fps := some 15 }] := by
  have hnd : (e.get_principal_requests profiles).Nodup := List.nodup_dedup _
  refine ⟨hnd, ?_, by decide, by decide⟩
  refine List.Pairwise.imp ?_ hnd
  intro a b hab hsame
  apply hab
  cases a
  cases b
  simp only [stream_request.mk.injEq]
  exact hsame

/-! ## C7: requests that collide on one native profile -/

end rsimpl
